import Mathlib

/-!
Shallow embedding of the `next-rest-api` adapter (`src/index.js`): the
`withRest` dispatcher and the `withValidation` wrapper, together with the
fragments of their external collaborators that the code observably relies
on (the `@hapi/boom` structured-error library, the `@hapi/joi` validation
engine, and the Next.js response object).  Effects are modelled as explicit
state: the response is a record that the handlers and the dispatcher
thread through, `console.error` output is a list of lines, and each
invocation of the `logError` / `sendError` hooks by the dispatcher is
recorded so that "invoked exactly once" is a provable statement.
-/

/-- A JSON-ish JavaScript value, including `undefined` (distinct from
`null`): handler return values, request segments and error payloads. -/
inductive JsVal where
  | undefined
  | null
  | boolVal (b : Bool)
  | str (s : String)
  | num (n : Int)
  | obj (fields : List (String × JsVal))

/-- Truth of `v === undefined` (the strict check on line 123 of the source). -/
def JsVal.isUndefined : JsVal → Bool
  | .undefined => true
  | _ => false

/-- Truth of `v == null` (the loose check on line 133 of the source, which
is true exactly for `null` and `undefined`). -/
def JsVal.isNullish : JsVal → Bool
  | .undefined => true
  | .null => true
  | _ => false

/-- Property read `obj[k]` on a field list: first binding wins, absent
fields read as `undefined`, as in JavaScript. -/
def objGetL : List (String × JsVal) → String → JsVal
  | [], _ => .undefined
  | kv :: rest, k => if kv.1 == k then kv.2 else objGetL rest k

/-- Property read `v[k]` on an arbitrary value; non-objects read as
`undefined`. -/
def objGet (v : JsVal) (k : String) : JsVal :=
  match v with
  | .obj kvs => objGetL kvs k
  | _ => .undefined

/-- The `output` of a Boom error: HTTP status code, the headers the error
asks to be set on the response, and the client-visible JSON payload.
Models `err.output` of `@hapi/boom`. -/
structure BoomOutput where
  statusCode : Nat
  headers : List (String × String)
  payload : JsVal

mutual
/-- A thrown JavaScript error: either a plain error (no `isBoom` marker;
only its `message` and `stack` are observed by this code) or a Boom
structured error. -/
inductive JsError where
  | plain (message : String) (stack : String)
  | boom (b : BoomError)

/-- A `@hapi/boom` structured error: the `isServer` flag (true for the
5xx class), the internal `message`, the attached `data`, the `output`
describing the HTTP response, and the `stack` string. -/
inductive BoomError where
  | mk (isServer : Bool) (message : String) (data : BoomData) (output : BoomOutput)
      (stack : String)

/-- The `data` argument attached to a Boom error, as far as this code
reads it (`err.data && err.data.originalError`): no data at all, data
without an `originalError` field, or data carrying the causal error. -/
inductive BoomData where
  | absent
  | noOriginal
  | withOriginal (e : JsError)
end

def BoomError.isServer : BoomError → Bool
  | .mk s _ _ _ _ => s

def BoomError.message : BoomError → String
  | .mk _ m _ _ _ => m

def BoomError.data : BoomError → BoomData
  | .mk _ _ d _ _ => d

def BoomError.output : BoomError → BoomOutput
  | .mk _ _ _ o _ => o

def BoomError.stack : BoomError → String
  | .mk _ _ _ _ st => st

/-- The `stack` property of a thrown error. -/
def JsError.stack : JsError → String
  | .plain _ st => st
  | .boom b => b.stack

/-- HTTP status texts, as `@hapi/boom` derives the payload `error` field
from the status code (only the codes this development exercises need a
name). -/
def boomStatusText : Nat → String
  | 400 => "Bad Request"
  | 401 => "Unauthorized"
  | 403 => "Forbidden"
  | 404 => "Not Found"
  | 405 => "Method Not Allowed"
  | 500 => "Internal Server Error"
  | _ => "Unknown"

/-- The payload `@hapi/boom` builds for a freshly constructed error
(its `reformat`): `statusCode`, the status text as `error`, and the
message — except that a 500 error hides its message behind the generic
"An internal server error occurred". -/
def boomPayload (statusCode : Nat) (message : String) : JsVal :=
  if statusCode == 500 then
    .obj [("statusCode", .num (Int.ofNat statusCode)),
          ("error", .str (boomStatusText statusCode)),
          ("message", .str "An internal server error occurred")]
  else
    .obj [("statusCode", .num (Int.ofNat statusCode)),
          ("error", .str (boomStatusText statusCode)),
          ("message", .str message)]

/-- Construction of a fresh Boom error with the given status code, message
and data: `isServer` is true exactly for codes at or above 500, the output
carries no headers, and the stack begins with the message as a `new Error`
stack does. -/
def boomNew (statusCode : Nat) (message : String) (data : BoomData) : BoomError :=
  .mk (decide (500 ≤ statusCode)) message data
    { statusCode := statusCode, headers := [], payload := boomPayload statusCode message }
    ("Error: " ++ message)

/-- Models `Boom.methodNotAllowed(message)`. -/
def boomMethodNotAllowed (message : String) : BoomError :=
  boomNew 405 message .absent

/-- Models `Boom.internal(message, data)` (also used with no data). -/
def boomInternal (message : String) (data : BoomData) : BoomError :=
  boomNew 500 message data

/-- Models `Boom.badRequest(message, data)`. -/
def boomBadRequest (message : String) (data : BoomData) : BoomError :=
  boomNew 400 message data

/-- Models `Boom.forbidden(message, data)` (used by concrete instances in
the theorems below). -/
def boomForbidden (message : String) (data : BoomData) : BoomError :=
  boomNew 403 message data

/-- The body carried by the response state: nothing written yet, a raw
string written by `res.end`, or a JSON value written by `res.json`. -/
inductive ResBody where
  | empty
  | raw (s : String)
  | jsonVal (v : JsVal)

/-- The observable state of the Next.js response object: whether headers
have been flushed, the status code (initially 200 in Node), the headers
set so far, and the body. Writes are modelled as plain state updates; any
low-level double-send guard of the HTTP layer is an external concern. -/
structure Response where
  headersSent : Bool
  status : Nat
  headers : List (String × String)
  body : ResBody

/-- Models `res.setHeader(k, v)`: replaces any previous binding of `k`. -/
def Response.setHeader (res : Response) (k v : String) : Response :=
  { res with headers := (k, v) :: res.headers.filter (fun kv => kv.1 != k) }

/-- Models `res.status(c)`. -/
def Response.setStatus (res : Response) (c : Nat) : Response :=
  { res with status := c }

/-- Models the Next.js `res.json(v)`: sets the JSON content type
unconditionally (as Next.js `sendJson` does), writes the serialized value
as the body and flushes the response. The status code is left as it is. -/
def Response.json (res : Response) (v : JsVal) : Response :=
  { res.setHeader "Content-Type" "application/json; charset=utf-8" with
      body := .jsonVal v, headersSent := true }

/-- Models `res.end(s)`: writes the raw string body and flushes the
response without touching status or headers. -/
def Response.endRaw (res : Response) (s : String) : Response :=
  { res with body := .raw s, headersSent := true }

/-- Header lookup on the response state (case handling of real HTTP header
names is outside the model; keys are compared verbatim). -/
def headerGet : List (String × String) → String → Option String
  | [], _ => none
  | kv :: rest, k => if kv.1 == k then some kv.2 else headerGet rest k

/-- The last value a header-object entry list assigns to key `k` — what a
JavaScript header object holds at `k` after its entries are applied in
order (a later binding shadows an earlier one). -/
def lastSet : List (String × String) → String → Option String
  | [], _ => none
  | kv :: rest, k =>
      match lastSet rest k with
      | some v => some v
      | none => if kv.1 == k then some kv.2 else none

/-- The incoming request: the HTTP method and the three segments the
adapter reads and rewrites, plus the remaining enumerable properties of
the request object. -/
structure Request where
  method : String
  headers : JsVal
  body : JsVal
  query : JsVal
  other : List (String × JsVal)

/-- The request as the JavaScript object the validation engine sees. -/
def Request.toObj (req : Request) : JsVal :=
  .obj ([("headers", req.headers), ("body", req.body), ("query", req.query),
         ("method", .str req.method)] ++ req.other)

/-- A handler's execution on a request and response state: the response
state it leaves behind, and either a returned value or a thrown error. -/
structure HandlerResult where
  res : Response
  outcome : Except JsError JsVal

/-- A (possibly async) HTTP handler, as the dispatcher awaits it: a
function of the request and the current response state. -/
abbrev Handler : Type :=
  Request → Response → HandlerResult

/-- String trimming as the validation engine's `trim` normalization does
it: whitespace removed from both ends. -/
def jsTrim (s : String) : String :=
  String.mk (((s.data.dropWhile Char.isWhitespace).reverse.dropWhile
    Char.isWhitespace).reverse)

/-- The fragment of the `@hapi/joi` schema language this code and its
tests exercise: object schemas with per-key child schemas and an
allow-unknown flag (Joi's default is to reject unknown keys; `.unknown(true)`
allows them), string schemas with optional trimming, a `Joi.valid(s)`
constraint, and the `.required()` presence wrapper (every schema is
optional unless wrapped). -/
inductive JoiSchema where
  | object (fields : List (String × JoiSchema)) (allowUnknown : Bool)
  | stringS (doTrim : Bool)
  | validStr (allowed : String)
  | required (inner : JoiSchema)

/-- Renders a value path the way Joi quotes it in failure messages,
e.g. `"body.foo"`. -/
def quotePath (path : List String) : String :=
  "\"" ++ String.intercalate "." path ++ "\""

/-- Whether `k` is one of the keys an object schema specifies. -/
def isSchemaKey (fields : List (String × JoiSchema)) (k : String) : Bool :=
  fields.any (fun f => f.1 == k)

/-- The first key of the input object that the object schema does not
specify, if any. -/
def firstUnknownKey (fields : List (String × JoiSchema)) (kvs : List (String × JsVal)) :
    Option String :=
  (kvs.find? (fun kv => !(isSchemaKey fields kv.1))).map (fun kv => kv.1)

/-- Reassembles the validated object: input keys in input order, with each
schema-specified key replaced by its validated (possibly normalized)
value. -/
def mergeValidated (fields : List (String × JoiSchema)) (fieldVals : List (String × JsVal))
    (kvs : List (String × JsVal)) : List (String × JsVal) :=
  kvs.map (fun kv => if isSchemaKey fields kv.1 then (kv.1, objGetL fieldVals kv.1) else kv)

mutual
/-- Joi validation (`schema.validateAsync(value)` with Joi's default
options, which abort on the first failure): returns the normalized value
or the descriptive failure message. Absent (`undefined`) values pass any
non-`required` schema; an object schema validates each specified key at
its dotted path and then rejects the first unknown key unless the schema
allows unknown keys. -/
def joiValidate : JoiSchema → List String → JsVal → Except String JsVal
  | .required inner, path, v =>
      if v.isUndefined then .error (quotePath path ++ " is required")
      else joiValidate inner path v
  | .stringS doTrim, path, v =>
      match v with
      | .undefined => .ok .undefined
      | .str s => .ok (.str (if doTrim then jsTrim s else s))
      | _ => .error (quotePath path ++ " must be a string")
  | .validStr allowed, path, v =>
      match v with
      | .undefined => .ok .undefined
      | .str s =>
          if s = allowed then .ok (.str s)
          else .error (quotePath path ++ " must be [" ++ allowed ++ "]")
      | _ => .error (quotePath path ++ " must be [" ++ allowed ++ "]")
  | .object fields allowUnknown, path, v =>
      match v with
      | .undefined => .ok .undefined
      | .obj kvs =>
          match joiValidateFields fields path kvs with
          | .error e => .error e
          | .ok fieldVals =>
              match (if allowUnknown then none else firstUnknownKey fields kvs) with
              | some k => .error (quotePath (path ++ [k]) ++ " is not allowed")
              | none => .ok (.obj (mergeValidated fields fieldVals kvs))
      | _ => .error (quotePath path ++ " must be of type object")

/-- Validates each schema-specified key of an object against its child
schema, reading absent keys as `undefined`, and collects the validated
values. -/
def joiValidateFields :
    List (String × JoiSchema) → List String → List (String × JsVal) →
      Except String (List (String × JsVal))
  | [], _, _ => .ok []
  | (k, s) :: rest, path, kvs =>
      match joiValidate s (path ++ [k]) (objGetL kvs k) with
      | .error e => .error e
      | .ok v =>
          match joiValidateFields rest path kvs with
          | .error e => .error e
          | .ok vs => .ok ((k, v) :: vs)
end

/-- Models `withValidation` (src/index.js lines 53-70): builds the
composite schema `Joi.object(schemas).unknown(true)`, validates the
request object against it, on failure throws
`Boom.badRequest(err.message, { originalError: err })` (the Joi failure
being a plain error whose message is the descriptive failure message),
and on success copies the validated `headers`, `body` and `query` back
onto the request before delegating to the wrapped handler. -/
def withValidation (schemas : List (String × JoiSchema)) (fn : Handler) : Handler :=
  fun req res =>
    match joiValidate (.object schemas true) [] req.toObj with
    | .error msg =>
        { res := res,
          outcome := .error (.boom (boomBadRequest msg
            (.withOriginal (.plain msg ("ValidationError: " ++ msg))))) }
    | .ok validated =>
        fn { req with
              headers := objGet validated "headers",
              body := objGet validated "body",
              query := objGet validated "query" } res

/-- The `console.error` sink: the list of lines printed so far. -/
abbrev ConsoleLog : Type := List String

/-- Models `defaultLogError` (src/index.js lines 6-18): ignores errors
that are not server-class; otherwise prints the stack of the attached
original error when one is present in `err.data`, and the error's own
stack otherwise. -/
def defaultLogError (err : BoomError) (console : ConsoleLog) : ConsoleLog :=
  if !err.isServer then
    console
  else
    let errFinal : JsError :=
      match err.data with
      | .withOriginal orig => orig
      | _ => .boom err
    console ++ [errFinal.stack]

/-- Models `defaultSendError` (src/index.js lines 20-27): copies every
header of the error's output onto the response, then sets the status to
the error's status code and writes the error's payload as the JSON
body. -/
def defaultSendError (res : Response) (err : BoomError) : Response :=
  let output := err.output
  let res := output.headers.foldl (fun r kv => r.setHeader kv.1 kv.2) res
  (res.setStatus output.statusCode).json output.payload

/-- The options argument of `withRest`: each hook may be supplied or
left out. -/
structure OptionsIn where
  logError : Option (BoomError → ConsoleLog → ConsoleLog) := none
  sendError : Option (Response → BoomError → Response) := none

/-- The resolved options record. -/
structure ResolvedOptions where
  logError : BoomError → ConsoleLog → ConsoleLog
  sendError : Response → BoomError → Response

/-- Models the option spread on src/index.js lines 105-109: a supplied
hook replaces the default. -/
def mergeOptions (o : OptionsIn) : ResolvedOptions :=
  { logError := o.logError.getD defaultLogError
    sendError := o.sendError.getD defaultSendError }

/-- Method lookup `methods && methods[req.method]` (src/index.js
line 113): absent method map or absent entry both yield nothing. -/
def lookupHandler (methods : Option (List (String × Handler))) (m : String) :
    Option Handler :=
  match methods with
  | none => none
  | some ms => ms.lookup m

/-- Wrapping of the caught error on src/index.js lines 142-144: an error
without the Boom marker is wrapped into `Boom.internal('foo',
{ originalError: err })`; a Boom error is kept as it is. -/
def finalizeError : JsError → BoomError
  | .boom b => b
  | .plain m st => boomInternal "foo" (.withOriginal (.plain m st))

/-- The outcome of one dispatcher run: the final response state, the
console output, and the arguments of every invocation the dispatcher made
of the `logError` and `sendError` hooks (so invocation counts are
observable whatever the hooks do). -/
structure DispatchResult where
  res : Response
  console : ConsoleLog
  logCalls : List BoomError
  sendCalls : List BoomError

/-- The catch block of the dispatcher (src/index.js lines 140-148):
finalize the error, then invoke `logError` and `sendError` once each with
it. -/
def handleCatch (options : ResolvedOptions) (err : JsError) (res : Response)
    (console : ConsoleLog) : DispatchResult :=
  let errB := finalizeError err
  { res := options.sendError res errB,
    console := options.logError errB console,
    logCalls := [errB],
    sendCalls := [errB] }

/-- The diagnostic message of src/index.js line 125. -/
def alreadySentMessage : String :=
  "You have sent the response inside your handler but still returned something. This error was not sent to the client, however you should probably not return a value in the handler."

/-- Models `withRest` (src/index.js lines 104-150), presented fully
applied to the request, the response state and the console state.  Method
lookup failure throws a 405 Boom error into the catch block; a handler
throw reaches the same catch block.  On normal completion: if the
response was already sent, nothing further is written and a diagnostic is
logged when the handler nevertheless returned a value other than
`undefined`; a nullish return value is written as the literal `null` body
with explicit content type and length; any other value is written with
`res.json`. -/
def withRest (methods : Option (List (String × Handler))) (optionsIn : OptionsIn)
    (req : Request) (res : Response) (console : ConsoleLog) : DispatchResult :=
  match lookupHandler methods req.method with
  | none =>
      handleCatch (mergeOptions optionsIn)
        (.boom (boomMethodNotAllowed
          ("Method " ++ req.method ++ " is not supported for this endpoint")))
        res console
  | some method =>
      match method req res with
      | ⟨res1, .error err⟩ => handleCatch (mergeOptions optionsIn) err res1 console
      | ⟨res1, .ok json⟩ =>
          if res1.headersSent then
            if !json.isUndefined then
              { res := res1,
                console := (mergeOptions optionsIn).logError
                  (boomInternal alreadySentMessage .absent) console,
                logCalls := [boomInternal alreadySentMessage .absent],
                sendCalls := [] }
            else
              { res := res1, console := console, logCalls := [], sendCalls := [] }
          else if json.isNullish then
            { res := ((res1.setHeader "Content-Type" "application/json; charset=utf-8").setHeader
                "Content-Length" "4").endRaw "null",
              console := console, logCalls := [], sendCalls := [] }
          else
            { res := res1.json json, console := console, logCalls := [], sendCalls := [] }

/-- Left-biased choice on optional values, used to phrase what a fold of
header writes leaves behind. -/
def optOr (a b : Option String) : Option String :=
  match a with
  | some v => some v
  | none => b

/-- Filtering out the bindings of one key leaves lookups of any other key
unchanged. -/
theorem headerGet_filter_keyne (k k₀ : String) (hn : k₀ ≠ k)
    (hs : List (String × String)) :
    headerGet (hs.filter (fun kv => kv.1 != k)) k₀ = headerGet hs k₀ := by
  induction hs with
  | nil => rfl
  | cons kv t ih =>
      rw [List.filter_cons]
      by_cases h1 : kv.1 = k
      · simp [h1, headerGet, ih, Ne.symm hn]
      · have hkeep : (kv.1 != k) = true := by simp [bne, h1]
        simp [hkeep, headerGet, ih]

/-- Lookup after `setHeader`: the set key reads the new value, any other
key is untouched. -/
theorem headerGet_setHeader (r : Response) (k v k₀ : String) :
    headerGet ((r.setHeader k v).headers) k₀ =
      if k₀ = k then some v else headerGet r.headers k₀ := by
  by_cases h : k₀ = k
  · subst h
    simp [Response.setHeader, headerGet]
  · have hne : (k == k₀) = false :=
      beq_eq_false_iff_ne.mpr (fun hh => h hh.symm)
    simp [Response.setHeader, headerGet, hne, h]
    exact headerGet_filter_keyne k k₀ h r.headers

/-- Copying a header-object entry list onto the response with repeated
`setHeader` calls makes each key read the last value the list assigns to
it, leaving all other keys as they were. -/
theorem headerGet_foldl_setHeader (hs : List (String × String)) (r : Response)
    (k : String) :
    headerGet ((hs.foldl (fun r kv => r.setHeader kv.1 kv.2) r).headers) k =
      optOr (lastSet hs k) (headerGet r.headers k) := by
  induction hs generalizing r with
  | nil => rfl
  | cons kv t ih =>
      simp only [List.foldl_cons]
      rw [ih, headerGet_setHeader]
      by_cases hk : k = kv.1
      · subst hk
        cases hls : lastSet t kv.1 with
        | some v => simp [optOr, lastSet, hls]
        | none => simp [optOr, lastSet, hls]
      · have hb : (kv.1 == k) = false :=
          beq_eq_false_iff_ne.mpr (fun hh => hk hh.symm)
        cases hls : lastSet t k with
        | some v => simp [optOr, lastSet, hls, hk, hb]
        | none => simp [optOr, lastSet, hls, hk, hb]

/-- A fresh response state, as the host hands it to the dispatcher. -/
def res0 : Response :=
  { headersSent := false, status := 200, headers := [], body := .empty }

/-- A concrete GET request with empty segments. -/
def reqGET : Request :=
  { method := "GET", headers := .obj [], body := .obj [], query := .obj [], other := [] }

/-- A concrete POST request with empty segments. -/
def reqPOST : Request :=
  { method := "POST", headers := .obj [], body := .obj [], query := .obj [], other := [] }

/-- The stack string of the sample plain error below. -/
def plainStack : String :=
  "Error: db exploded\n    at handler (app.js:3:5)"

/-- A handler that throws a plain (non-Boom) error. -/
def throwPlainHandler : Handler :=
  fun _ r => { res := r, outcome := .error (.plain "db exploded" plainStack) }

/-- C1: for every request whose handling fails — the method lookup fails,
or the matched handler throws — the dispatcher returns normally (it is a
total function into `DispatchResult`, so nothing is re-thrown past the
catch block) and invokes the `logError` hook and the `sendError` hook
exactly once each, both with the same finalized structured error; the
hooks used are exactly those resolved by `mergeOptions`, i.e. the custom
ones when supplied and the defaults otherwise, and the single entry of
`sendCalls` is the one error response dispatched for the request. -/
theorem withRest_failing_request_hooks_once
    (methods : Option (List (String × Handler))) (optionsIn : OptionsIn)
    (req : Request) (res : Response) (console : ConsoleLog) :
    (lookupHandler methods req.method = none →
      withRest methods optionsIn req res console =
        { res := (mergeOptions optionsIn).sendError res
            (boomMethodNotAllowed
              ("Method " ++ req.method ++ " is not supported for this endpoint")),
          console := (mergeOptions optionsIn).logError
            (boomMethodNotAllowed
              ("Method " ++ req.method ++ " is not supported for this endpoint")) console,
          logCalls := [boomMethodNotAllowed
            ("Method " ++ req.method ++ " is not supported for this endpoint")],
          sendCalls := [boomMethodNotAllowed
            ("Method " ++ req.method ++ " is not supported for this endpoint")] }) ∧
    (∀ (h : Handler) (res1 : Response) (e : JsError),
      lookupHandler methods req.method = some h →
      h req res = { res := res1, outcome := .error e } →
      withRest methods optionsIn req res console =
        { res := (mergeOptions optionsIn).sendError res1 (finalizeError e),
          console := (mergeOptions optionsIn).logError (finalizeError e) console,
          logCalls := [finalizeError e],
          sendCalls := [finalizeError e] }) := by
  constructor
  · intro hnone
    simp only [withRest, hnone]
    rfl
  · intro h res1 e hlook hrun
    simp only [withRest, hlook, hrun]
    rfl

/-- Witness for C1 at concrete failing inputs: a request whose method has
no handler, and a handler that throws a plain error. -/
theorem withRest_failing_request_hooks_once_witness :
    (withRest none {} reqGET res0 [] =
      { res := defaultSendError res0
          (boomMethodNotAllowed "Method GET is not supported for this endpoint"),
        console := defaultLogError
          (boomMethodNotAllowed "Method GET is not supported for this endpoint") [],
        logCalls := [boomMethodNotAllowed "Method GET is not supported for this endpoint"],
        sendCalls := [boomMethodNotAllowed "Method GET is not supported for this endpoint"] }) ∧
    (withRest (some [("GET", throwPlainHandler)]) {} reqGET res0 [] =
      { res := defaultSendError res0 (finalizeError (.plain "db exploded" plainStack)),
        console := defaultLogError (finalizeError (.plain "db exploded" plainStack)) [],
        logCalls := [finalizeError (.plain "db exploded" plainStack)],
        sendCalls := [finalizeError (.plain "db exploded" plainStack)] }) :=
  ⟨(withRest_failing_request_hooks_once none {} reqGET res0 []).1 rfl,
   (withRest_failing_request_hooks_once (some [("GET", throwPlainHandler)]) {} reqGET
      res0 []).2 throwPlainHandler res0 (.plain "db exploded" plainStack) rfl rfl⟩

/-- C2: when the method map (possibly absent altogether) has no entry for
the request's method, the dispatcher with the default hooks responds with
status 405 and exactly the method-not-allowed JSON body naming the
method; no handler is reached — the run coincides with that of the absent
method map. -/
theorem withRest_method_not_allowed
    (methods : Option (List (String × Handler))) (req : Request) (res : Response)
    (console : ConsoleLog)
    (hmiss : lookupHandler methods req.method = none) :
    (withRest methods {} req res console).res.status = 405 ∧
    (withRest methods {} req res console).res.body =
      .jsonVal (.obj [("statusCode", .num 405),
                      ("error", .str "Method Not Allowed"),
                      ("message", .str ("Method " ++ req.method ++
                        " is not supported for this endpoint"))]) ∧
    withRest methods {} req res console = withRest none {} req res console := by
  simp only [withRest, hmiss]
  exact ⟨rfl, rfl, rfl⟩

/-- Witness for C2: `withRest()` with no method map, hit with a GET. -/
theorem withRest_method_not_allowed_witness :
    (withRest none {} reqGET res0 []).res.status = 405 ∧
    (withRest none {} reqGET res0 []).res.body =
      .jsonVal (.obj [("statusCode", .num 405),
                      ("error", .str "Method Not Allowed"),
                      ("message", .str "Method GET is not supported for this endpoint")]) :=
  ⟨(withRest_method_not_allowed none reqGET res0 [] rfl).1,
   (withRest_method_not_allowed none reqGET res0 [] rfl).2.1⟩

/-- C3: a handler that throws a plain (non-Boom) value makes the
dispatcher with the default hooks respond 500 with exactly the generic
body; the thrown value is attached to the wrapping structured error as
`data.originalError`, the logging hook is invoked exactly once with that
wrapper, and the line the default `logError` prints is the original
error's stack, not the wrapper's. -/
theorem withRest_plain_throw_500
    (methods : Option (List (String × Handler))) (req : Request) (res : Response)
    (console : ConsoleLog) (h : Handler) (res1 : Response) (m st : String)
    (hlook : lookupHandler methods req.method = some h)
    (hrun : h req res = { res := res1, outcome := .error (.plain m st) }) :
    (withRest methods {} req res console).res.status = 500 ∧
    (withRest methods {} req res console).res.body =
      .jsonVal (.obj [("statusCode", .num 500),
                      ("error", .str "Internal Server Error"),
                      ("message", .str "An internal server error occurred")]) ∧
    (withRest methods {} req res console).logCalls =
      [boomInternal "foo" (.withOriginal (.plain m st))] ∧
    (boomInternal "foo" (.withOriginal (.plain m st))).data =
      .withOriginal (.plain m st) ∧
    (withRest methods {} req res console).console = console ++ [st] := by
  simp only [withRest, hlook, hrun]
  exact ⟨rfl, rfl, rfl, rfl, rfl⟩

/-- Witness for C3: the plain-throw handler under default options. -/
theorem withRest_plain_throw_500_witness :
    (withRest (some [("GET", throwPlainHandler)]) {} reqGET res0 []).res.status = 500 ∧
    (withRest (some [("GET", throwPlainHandler)]) {} reqGET res0 []).console =
      [] ++ [plainStack] :=
  ⟨(withRest_plain_throw_500 (some [("GET", throwPlainHandler)]) reqGET res0 []
      throwPlainHandler res0 "db exploded" plainStack rfl rfl).1,
   (withRest_plain_throw_500 (some [("GET", throwPlainHandler)]) reqGET res0 []
      throwPlainHandler res0 "db exploded" plainStack rfl rfl).2.2.2.2⟩

/-- C4 (amended): a handler that throws a Boom error directly makes the
dispatcher with the default hooks respond with that error's own status
code and its payload as the JSON body, without re-wrapping it (the hooks
receive the very same error); every header of the error's output is
copied verbatim onto the response — except a `Content-Type` header, which
the JSON body writer subsequently overwrites (see the counterexample). -/
theorem withRest_boom_throw_passthrough
    (methods : Option (List (String × Handler))) (req : Request) (res : Response)
    (console : ConsoleLog) (h : Handler) (res1 : Response) (b : BoomError)
    (hlook : lookupHandler methods req.method = some h)
    (hrun : h req res = { res := res1, outcome := .error (.boom b) }) :
    (withRest methods {} req res console).res.status = b.output.statusCode ∧
    (withRest methods {} req res console).res.body = .jsonVal b.output.payload ∧
    (withRest methods {} req res console).logCalls = [b] ∧
    (withRest methods {} req res console).sendCalls = [b] ∧
    (∀ k v, k ≠ "Content-Type" → lastSet b.output.headers k = some v →
      headerGet (withRest methods {} req res console).res.headers k = some v) := by
  simp only [withRest, hlook, hrun]
  refine ⟨rfl, rfl, rfl, rfl, ?_⟩
  intro k v hk hlast
  have hstep : (handleCatch (mergeOptions {}) (.boom b) res1 console).res =
      ((b.output.headers.foldl (fun r kv => r.setHeader kv.1 kv.2) res1).setStatus
        b.output.statusCode).json b.output.payload := rfl
  rw [hstep]
  have hjson : (((b.output.headers.foldl (fun r kv => r.setHeader kv.1 kv.2) res1).setStatus
        b.output.statusCode).json b.output.payload).headers =
      (((b.output.headers.foldl (fun r kv => r.setHeader kv.1 kv.2) res1).setStatus
        b.output.statusCode).setHeader "Content-Type"
          "application/json; charset=utf-8").headers := rfl
  rw [hjson, headerGet_setHeader, if_neg hk]
  have hss : ((b.output.headers.foldl (fun r kv => r.setHeader kv.1 kv.2) res1).setStatus
        b.output.statusCode).headers =
      (b.output.headers.foldl (fun r kv => r.setHeader kv.1 kv.2) res1).headers := rfl
  rw [hss, headerGet_foldl_setHeader, hlast]
  rfl

/-- A Boom error whose output demands its own `Content-Type` header. -/
def ctBoom : BoomError :=
  .mk false "foo" .absent
    { statusCode := 403,
      headers := [("Content-Type", "text/plain"), ("X-Reason", "fenced")],
      payload := boomPayload 403 "foo" }
    "Error: foo"

/-- A handler throwing `ctBoom`. -/
def ctBoomHandler : Handler :=
  fun _ r => { res := r, outcome := .error (.boom ctBoom) }

/-- Counterexample to C4 as stated: the thrown error's output carries the
header `Content-Type: text/plain`, but the response the dispatcher sends
carries `Content-Type: application/json; charset=utf-8`, because the
default `sendError` first copies the error headers and then `res.json`
sets the JSON content type — so not every header of the error's output
reaches the response verbatim. -/
theorem withRest_boom_throw_counterexample :
    lastSet ctBoom.output.headers "Content-Type" = some "text/plain" ∧
    headerGet (withRest (some [("GET", ctBoomHandler)]) {} reqGET res0 []).res.headers
        "Content-Type" = some "application/json; charset=utf-8" ∧
    some "application/json; charset=utf-8" ≠ some "text/plain" :=
  ⟨rfl, rfl, by decide⟩

/-- A Boom error with a custom non-content-type header, like the
unauthorized error of the repository's tests. -/
def wwwBoom : BoomError :=
  .mk false "Invalid password" .absent
    { statusCode := 401,
      headers := [("WWW-Authenticate", "sample error=\"Invalid password\"")],
      payload := .obj [("statusCode", .num 401), ("error", .str "Unauthorized"),
                       ("message", .str "Invalid password")] }
    "Error: Invalid password"

/-- A handler throwing `wwwBoom`. -/
def wwwBoomHandler : Handler :=
  fun _ r => { res := r, outcome := .error (.boom wwwBoom) }

/-- Witness for C4 (amended): the 401 error's status, payload and custom
`WWW-Authenticate` header all reach the response. -/
theorem withRest_boom_throw_passthrough_witness :
    (withRest (some [("POST", wwwBoomHandler)]) {} reqPOST res0 []).res.status =
      wwwBoom.output.statusCode ∧
    (withRest (some [("POST", wwwBoomHandler)]) {} reqPOST res0 []).res.body =
      .jsonVal wwwBoom.output.payload ∧
    headerGet (withRest (some [("POST", wwwBoomHandler)]) {} reqPOST res0 []).res.headers
        "WWW-Authenticate" = some "sample error=\"Invalid password\"" :=
  ⟨(withRest_boom_throw_passthrough (some [("POST", wwwBoomHandler)]) reqPOST res0 []
      wwwBoomHandler res0 wwwBoom rfl rfl).1,
   (withRest_boom_throw_passthrough (some [("POST", wwwBoomHandler)]) reqPOST res0 []
      wwwBoomHandler res0 wwwBoom rfl rfl).2.1,
   (withRest_boom_throw_passthrough (some [("POST", wwwBoomHandler)]) reqPOST res0 []
      wwwBoomHandler res0 wwwBoom rfl rfl).2.2.2.2 "WWW-Authenticate"
      "sample error=\"Invalid password\"" (by decide) rfl⟩

/-- C7: when the matched handler completes without the response having
been sent, a `null` or `undefined` return value makes the dispatcher
write the literal 4-byte body `null` with content type
`application/json; charset=utf-8` and content length 4 — not an empty
body — and any other return value is written as an ordinary JSON
response; in both cases the status code stays exactly as the handler left
it. -/
theorem withRest_success_serialization
    (methods : Option (List (String × Handler))) (optionsIn : OptionsIn)
    (req : Request) (res : Response) (console : ConsoleLog) (h : Handler)
    (res1 : Response) (json : JsVal)
    (hlook : lookupHandler methods req.method = some h)
    (hrun : h req res = { res := res1, outcome := .ok json })
    (hsent : res1.headersSent = false) :
    (json.isNullish = true →
      (withRest methods optionsIn req res console).res.body = .raw "null" ∧
      headerGet (withRest methods optionsIn req res console).res.headers "Content-Type" =
        some "application/json; charset=utf-8" ∧
      headerGet (withRest methods optionsIn req res console).res.headers "Content-Length" =
        some "4" ∧
      (withRest methods optionsIn req res console).res.status = res1.status) ∧
    (json.isNullish = false →
      (withRest methods optionsIn req res console).res = res1.json json ∧
      (withRest methods optionsIn req res console).res.status = res1.status ∧
      (withRest methods optionsIn req res console).res.body = .jsonVal json) := by
  simp only [withRest, hlook, hrun]
  rw [hsent]
  constructor
  · intro hn
    rw [if_neg Bool.false_ne_true, hn, if_pos rfl]
    refine ⟨rfl, ?_, ?_, rfl⟩
    · have hend : ((((res1.setHeader "Content-Type"
            "application/json; charset=utf-8").setHeader "Content-Length" "4").endRaw
            "null")).headers =
          (((res1.setHeader "Content-Type"
            "application/json; charset=utf-8").setHeader "Content-Length" "4")).headers := rfl
      rw [hend, headerGet_setHeader, if_neg (by decide), headerGet_setHeader, if_pos rfl]
    · have hend : ((((res1.setHeader "Content-Type"
            "application/json; charset=utf-8").setHeader "Content-Length" "4").endRaw
            "null")).headers =
          (((res1.setHeader "Content-Type"
            "application/json; charset=utf-8").setHeader "Content-Length" "4")).headers := rfl
      rw [hend, headerGet_setHeader, if_pos rfl]
  · intro hn
    rw [if_neg Bool.false_ne_true, hn, if_neg Bool.false_ne_true]
    exact ⟨rfl, rfl, rfl⟩

/-- A handler that sends a 201 JSON response itself and returns a value
anyway. -/
def sendAndReturnHandler : Handler :=
  fun _ r => { res := (r.setStatus 201).json (.obj [("foo", .str "bar")]),
               outcome := .ok (.obj [("hello", .str "world")]) }

/-- Witness for C7: a handler that returns `null` on a fresh response. -/
def nullHandler : Handler :=
  fun _ r => { res := r, outcome := .ok .null }

/-- A handler returning a proper JSON object. -/
def objHandler : Handler :=
  fun _ r => { res := r, outcome := .ok (.obj [("foo", .str "bar")]) }

/-- Witness for C7: the `null`-returning and object-returning handlers on
a fresh response. -/
theorem withRest_success_serialization_witness :
    ((withRest (some [("GET", nullHandler)]) {} reqGET res0 []).res.body = .raw "null" ∧
      headerGet (withRest (some [("GET", nullHandler)]) {} reqGET res0 []).res.headers
        "Content-Length" = some "4") ∧
    (withRest (some [("GET", objHandler)]) {} reqGET res0 []).res.body =
      .jsonVal (.obj [("foo", .str "bar")]) :=
  ⟨⟨((withRest_success_serialization (some [("GET", nullHandler)]) {} reqGET res0 []
        nullHandler res0 .null rfl rfl rfl).1 rfl).1,
    ((withRest_success_serialization (some [("GET", nullHandler)]) {} reqGET res0 []
        nullHandler res0 .null rfl rfl rfl).1 rfl).2.2.1⟩,
   ((withRest_success_serialization (some [("GET", objHandler)]) {} reqGET res0 []
        objHandler res0 (.obj [("foo", .str "bar")]) rfl rfl rfl).2 rfl).2.2⟩

/-- C8: when the handler completes with the response already sent, the
dispatcher leaves the response state exactly as the handler left it (no
status, header or body write, and no `sendError` invocation); if the
handler additionally returned a value other than `undefined`, the logging
hook is invoked exactly once with the internal-error-classed (500,
server-flagged) diagnostic error, and otherwise it is not invoked at
all. -/
theorem withRest_headers_sent_untouched
    (methods : Option (List (String × Handler))) (optionsIn : OptionsIn)
    (req : Request) (res : Response) (console : ConsoleLog) (h : Handler)
    (res1 : Response) (json : JsVal)
    (hlook : lookupHandler methods req.method = some h)
    (hrun : h req res = { res := res1, outcome := .ok json })
    (hsent : res1.headersSent = true) :
    (withRest methods optionsIn req res console).res = res1 ∧
    (withRest methods optionsIn req res console).sendCalls = [] ∧
    (json.isUndefined = false →
      (withRest methods optionsIn req res console).logCalls =
        [boomInternal alreadySentMessage .absent] ∧
      (withRest methods optionsIn req res console).console =
        (mergeOptions optionsIn).logError (boomInternal alreadySentMessage .absent) console ∧
      (boomInternal alreadySentMessage .absent).isServer = true ∧
      (boomInternal alreadySentMessage .absent).output.statusCode = 500) ∧
    (json.isUndefined = true →
      (withRest methods optionsIn req res console).logCalls = [] ∧
      (withRest methods optionsIn req res console).console = console) := by
  by_cases hj : json.isUndefined = true
  · simp only [withRest, hlook, hrun]
    rw [hsent, if_pos rfl, hj, Bool.not_true, if_neg Bool.false_ne_true]
    refine ⟨rfl, rfl, ?_, ?_⟩
    · intro hfalse
      exact Bool.noConfusion hfalse
    · intro _
      exact ⟨rfl, rfl⟩
  · have hj' : json.isUndefined = false := by
      cases hb : json.isUndefined
      · rfl
      · exact absurd hb hj
    simp only [withRest, hlook, hrun]
    rw [hsent, if_pos rfl, hj', Bool.not_false, if_pos rfl]
    refine ⟨rfl, rfl, ?_, ?_⟩
    · intro _
      exact ⟨rfl, rfl, rfl, rfl⟩
    · intro htrue
      exact Bool.noConfusion htrue

/-- A handler that sends the response itself and returns nothing
(`undefined`). -/
def sendOnlyHandler : Handler :=
  fun _ r => { res := (r.setStatus 201).json (.obj [("foo", .str "bar")]),
               outcome := .ok .undefined }

/-- Witness for C8: a handler that sent and returned data gets exactly one
diagnostic log with its response untouched; a handler that sent and
returned nothing gets none. -/
theorem withRest_headers_sent_untouched_witness :
    ((withRest (some [("POST", sendAndReturnHandler)]) {} reqPOST res0 []).res =
      (res0.setStatus 201).json (.obj [("foo", .str "bar")]) ∧
     (withRest (some [("POST", sendAndReturnHandler)]) {} reqPOST res0 []).logCalls =
      [boomInternal alreadySentMessage .absent]) ∧
    (withRest (some [("POST", sendOnlyHandler)]) {} reqPOST res0 []).logCalls = [] :=
  ⟨⟨(withRest_headers_sent_untouched (some [("POST", sendAndReturnHandler)]) {} reqPOST
       res0 [] sendAndReturnHandler ((res0.setStatus 201).json (.obj [("foo", .str "bar")]))
       (.obj [("hello", .str "world")]) rfl rfl rfl).1,
    ((withRest_headers_sent_untouched (some [("POST", sendAndReturnHandler)]) {} reqPOST
       res0 [] sendAndReturnHandler ((res0.setStatus 201).json (.obj [("foo", .str "bar")]))
       (.obj [("hello", .str "world")]) rfl rfl rfl).2.2.1 rfl).1⟩,
   ((withRest_headers_sent_untouched (some [("POST", sendOnlyHandler)]) {} reqPOST
       res0 [] sendOnlyHandler ((res0.setStatus 201).json (.obj [("foo", .str "bar")]))
       .undefined rfl rfl rfl).2.2.2 rfl).1⟩

/-- C10: the dispatcher's returned-something check against an
already-sent response is strict against `undefined` only — a handler that
explicitly returns `null` after sending still triggers the diagnostic log
call, while a handler returning `undefined` does not — even though on the
normal (not-yet-sent) path `null` and `undefined` are treated alike, both
producing the literal `null` body. -/
theorem withRest_null_undefined_distinction
    (methods : Option (List (String × Handler))) (optionsIn : OptionsIn)
    (req : Request) (res : Response) (console : ConsoleLog) (h : Handler)
    (res1 : Response)
    (hlook : lookupHandler methods req.method = some h) :
    (h req res = { res := res1, outcome := .ok .null } →
      (res1.headersSent = true →
        (withRest methods optionsIn req res console).logCalls =
          [boomInternal alreadySentMessage .absent]) ∧
      (res1.headersSent = false →
        (withRest methods optionsIn req res console).res.body = .raw "null")) ∧
    (h req res = { res := res1, outcome := .ok .undefined } →
      (res1.headersSent = true →
        (withRest methods optionsIn req res console).logCalls = []) ∧
      (res1.headersSent = false →
        (withRest methods optionsIn req res console).res.body = .raw "null")) := by
  constructor
  · intro hrun
    constructor
    · intro hsent
      simp only [withRest, hlook, hrun]
      rw [hsent, if_pos rfl]
      rfl
    · intro hsent
      simp only [withRest, hlook, hrun]
      rw [hsent, if_neg Bool.false_ne_true]
      rfl
  · intro hrun
    constructor
    · intro hsent
      simp only [withRest, hlook, hrun]
      rw [hsent, if_pos rfl]
      rfl
    · intro hsent
      simp only [withRest, hlook, hrun]
      rw [hsent, if_neg Bool.false_ne_true]
      rfl

/-- A handler that sends a response and then explicitly returns `null`. -/
def sentNullHandler : Handler :=
  fun _ r => { res := r.json (.obj []), outcome := .ok .null }

/-- A handler that sends a response and returns `undefined`. -/
def sentUndefHandler : Handler :=
  fun _ r => { res := r.json (.obj []), outcome := .ok .undefined }

/-- Witness for C10: returning `null` after sending logs the diagnostic,
returning `undefined` does not, and on a fresh response `null` yields the
literal `null` body. -/
theorem withRest_null_undefined_distinction_witness :
    (withRest (some [("GET", sentNullHandler)]) {} reqGET res0 []).logCalls =
      [boomInternal alreadySentMessage .absent] ∧
    (withRest (some [("GET", sentUndefHandler)]) {} reqGET res0 []).logCalls = [] ∧
    (withRest (some [("GET", nullHandler)]) {} reqGET res0 []).res.body = .raw "null" :=
  ⟨((withRest_null_undefined_distinction (some [("GET", sentNullHandler)]) {} reqGET res0 []
      sentNullHandler (res0.json (.obj [])) rfl).1 rfl).1 rfl,
   ((withRest_null_undefined_distinction (some [("GET", sentUndefHandler)]) {} reqGET res0 []
      sentUndefHandler (res0.json (.obj [])) rfl).2 rfl).1 rfl,
   ((withRest_null_undefined_distinction (some [("GET", nullHandler)]) {} reqGET res0 []
      nullHandler res0 rfl).1 rfl).2 rfl⟩

/-- C5: whenever the composite-schema validation of a request fails, the
wrapped handler produced by `withValidation` raises a 400 Bad Request
structured error whose message equals the validation engine's descriptive
failure message, carrying the original validation failure as
`data.originalError`; the result does not depend on the inner handler
`fn`, which is therefore never invoked. -/
theorem withValidation_failure_400
    (schemas : List (String × JoiSchema)) (fn : Handler) (req : Request)
    (res : Response) (msg : String)
    (hval : joiValidate (.object schemas true) [] req.toObj = .error msg) :
    withValidation schemas fn req res =
      { res := res,
        outcome := .error (.boom (boomBadRequest msg
          (.withOriginal (.plain msg ("ValidationError: " ++ msg))))) } ∧
    (boomBadRequest msg
      (.withOriginal (.plain msg ("ValidationError: " ++ msg)))).output.statusCode = 400 ∧
    (boomBadRequest msg
      (.withOriginal (.plain msg ("ValidationError: " ++ msg)))).message = msg ∧
    (boomBadRequest msg
      (.withOriginal (.plain msg ("ValidationError: " ++ msg)))).output.payload =
      .obj [("statusCode", .num 400), ("error", .str "Bad Request"),
            ("message", .str msg)] ∧
    (boomBadRequest msg
      (.withOriginal (.plain msg ("ValidationError: " ++ msg)))).data =
      .withOriginal (.plain msg ("ValidationError: " ++ msg)) := by
  refine ⟨?_, rfl, rfl, rfl, rfl⟩
  simp only [withValidation, hval]

/-- The schema set of the repository's body-validation test: `body.foo`
must equal `"bar"` and is required. -/
def c5schemas : List (String × JoiSchema) :=
  [("body", .object [("foo", .required (.validStr "bar"))] false)]

/-- Witness for C5: an empty body against `c5schemas` fails with the
engine's message `"body.foo" is required` and yields the 400 error. -/
theorem withValidation_failure_400_witness :
    joiValidate (.object c5schemas true) [] reqPOST.toObj =
      .error "\"body.foo\" is required" ∧
    withValidation c5schemas objHandler reqPOST res0 =
      { res := res0,
        outcome := .error (.boom (boomBadRequest "\"body.foo\" is required"
          (.withOriginal (.plain "\"body.foo\" is required"
            ("ValidationError: " ++ "\"body.foo\" is required"))))) } :=
  ⟨rfl,
   (withValidation_failure_400 c5schemas objHandler reqPOST res0
      "\"body.foo\" is required" rfl).1⟩

/-- C6: on successful validation, `withValidation` overwrites exactly the
request's `headers`, `body` and `query` with the engine's normalized
values — method and every other request property are untouched — and the
wrapped call is precisely the inner handler applied to the rewritten
request, so its return value and any error it throws are propagated
unchanged. -/
theorem withValidation_success_normalizes
    (schemas : List (String × JoiSchema)) (fn : Handler) (req : Request)
    (res : Response) (validated : JsVal)
    (hval : joiValidate (.object schemas true) [] req.toObj = .ok validated) :
    withValidation schemas fn req res =
      fn { req with headers := objGet validated "headers",
                    body := objGet validated "body",
                    query := objGet validated "query" } res ∧
    ({ req with headers := objGet validated "headers",
                body := objGet validated "body",
                query := objGet validated "query" } : Request).method = req.method ∧
    ({ req with headers := objGet validated "headers",
                body := objGet validated "body",
                query := objGet validated "query" } : Request).other = req.other := by
  refine ⟨?_, rfl, rfl⟩
  simp only [withValidation, hval]

/-- The schema set of the repository's normalization test, restricted to
the query segment: `query.foo` is a trimmed string. -/
def c6schemas : List (String × JoiSchema) :=
  [("query", .object [("foo", .stringS true)] false)]

/-- A request whose query carries a value with a trailing space. -/
def reqTrim : Request :=
  { method := "GET", headers := .obj [], body := .obj [],
    query := .obj [("foo", .str "first ")], other := [] }

/-- The normalized request object the engine returns for `reqTrim`. -/
def valTrim : JsVal :=
  .obj [("headers", .obj []), ("body", .obj []),
        ("query", .obj [("foo", .str "first")]), ("method", .str "GET")]

/-- A handler echoing the query segment it observes. -/
def echoQueryHandler : Handler :=
  fun r rs => { res := rs, outcome := .ok r.query }

/-- Witness for C6: the trailing space is trimmed and the downstream
handler observes the normalized query. -/
theorem withValidation_success_normalizes_witness :
    joiValidate (.object c6schemas true) [] reqTrim.toObj = .ok valTrim ∧
    withValidation c6schemas echoQueryHandler reqTrim res0 =
      echoQueryHandler { reqTrim with headers := objGet valTrim "headers",
                                      body := objGet valTrim "body",
                                      query := objGet valTrim "query" } res0 ∧
    (withValidation c6schemas echoQueryHandler reqTrim res0).outcome =
      .ok (.obj [("foo", .str "first")]) :=
  ⟨rfl,
   (withValidation_success_normalizes c6schemas echoQueryHandler reqTrim res0 valTrim
      rfl).1,
   rfl⟩

/-- Whether a validation outcome is a success. -/
def exceptOk {ε α : Type} : Except ε α → Bool
  | .ok _ => true
  | .error _ => false

/-- Field validation reads only the schema-specified keys of the input
object: two objects agreeing on those keys validate identically. -/
theorem joiValidateFields_congr (fields : List (String × JoiSchema))
    (path : List String) (kvs kvs' : List (String × JsVal))
    (hagree : ∀ k, isSchemaKey fields k = true → objGetL kvs k = objGetL kvs' k) :
    joiValidateFields fields path kvs = joiValidateFields fields path kvs' := by
  induction fields with
  | nil => rfl
  | cons f rest ih =>
      obtain ⟨k0, s0⟩ := f
      have hk : objGetL kvs k0 = objGetL kvs' k0 := by
        apply hagree
        simp [isSchemaKey]
      have hrest : ∀ k, isSchemaKey rest k = true → objGetL kvs k = objGetL kvs' k := by
        intro k hh
        apply hagree
        unfold isSchemaKey at hh ⊢
        rw [List.any_cons, hh, Bool.or_true]
      simp only [joiValidateFields]
      rw [hk, ih hrest]

/-- Reassembly after field validation leaves every key outside the schema
exactly as the input object had it. -/
theorem objGetL_mergeValidated (fields : List (String × JoiSchema))
    (fieldVals : List (String × JsVal)) (kvs : List (String × JsVal)) (k : String)
    (hk : isSchemaKey fields k = false) :
    objGetL (mergeValidated fields fieldVals kvs) k = objGetL kvs k := by
  induction kvs with
  | nil => rfl
  | cons kv t ih =>
      simp only [mergeValidated, List.map_cons] at ih ⊢
      by_cases hkey : isSchemaKey fields kv.1 = true
      · have hne : (kv.1 == k) = false := by
          apply beq_eq_false_iff_ne.mpr
          intro hh
          rw [hh] at hkey
          rw [hkey] at hk
          exact Bool.noConfusion hk
        simp [objGetL, hkey, hne, ih]
      · have hkey' : isSchemaKey fields kv.1 = false := by
          cases hb : isSchemaKey fields kv.1
          · rfl
          · exact absurd hb hkey
        simp [objGetL, hkey', ih]

/-- An object schema that keeps the engine's default (no unknown keys)
rejects the first input key it does not specify, once its specified
fields validated. -/
theorem joiValidate_rejects_unknown_field (fields : List (String × JoiSchema))
    (path : List String) (kvs fieldVals : List (String × JsVal)) (k : String)
    (hfv : joiValidateFields fields path kvs = .ok fieldVals)
    (hk : firstUnknownKey fields kvs = some k) :
    joiValidate (.object fields false) path (.obj kvs) =
      .error (quotePath (path ++ [k]) ++ " is not allowed") := by
  simp only [joiValidate, hfv, hk]
  rw [if_neg Bool.false_ne_true]

/-- C9 (amended): for the composite request schema `withValidation`
builds — the object of the schema set with unknown keys allowed at the
top level — (1) any request property outside the schema keys passes
through to the validated value unchanged, and (2) validation success does
not depend on such properties at all, so absent keys among
query/body/headers impose no constraint; but (3) inside a validated
segment the engine's default rejects a field the segment's schema does
not specify with a `... is not allowed` failure — unspecified fields in a
validated segment are not permitted unless that segment's schema itself
allows unknown keys. -/
theorem joiValidate_schema_scope :
    (∀ (fields : List (String × JoiSchema)) (kvs : List (String × JsVal))
        (out : JsVal) (k : String),
      joiValidate (.object fields true) [] (.obj kvs) = .ok out →
      isSchemaKey fields k = false →
      objGet out k = objGetL kvs k) ∧
    (∀ (fields : List (String × JoiSchema)) (kvs kvs' : List (String × JsVal)),
      (∀ k, isSchemaKey fields k = true → objGetL kvs k = objGetL kvs' k) →
      exceptOk (joiValidate (.object fields true) [] (.obj kvs)) =
        exceptOk (joiValidate (.object fields true) [] (.obj kvs'))) ∧
    (∀ (fields : List (String × JoiSchema)) (path : List String)
        (kvs fieldVals : List (String × JsVal)) (k : String),
      joiValidateFields fields path kvs = .ok fieldVals →
      firstUnknownKey fields kvs = some k →
      joiValidate (.object fields false) path (.obj kvs) =
        .error (quotePath (path ++ [k]) ++ " is not allowed")) := by
  refine ⟨?_, ?_, ?_⟩
  · intro fields kvs out k hok hk
    cases hfv : joiValidateFields fields [] kvs with
    | error e =>
        simp only [joiValidate, hfv] at hok
        exact Except.noConfusion hok
    | ok fv =>
        simp only [joiValidate, hfv] at hok
        rw [if_pos trivial] at hok
        injection hok with hout
        rw [← hout]
        simp only [objGet]
        exact objGetL_mergeValidated fields fv kvs k hk
  · intro fields kvs kvs' hagree
    simp only [joiValidate]
    rw [joiValidateFields_congr fields [] kvs kvs' hagree]
    cases hfv : joiValidateFields fields [] kvs' with
    | error e => simp [hfv]
    | ok fv => simp [hfv, exceptOk]
  · intro fields path kvs fieldVals k hfv hk
    exact joiValidate_rejects_unknown_field fields path kvs fieldVals k hfv hk

/-- A schema set whose body segment specifies only `foo` and keeps the
engine's default of rejecting unknown keys. -/
def c9schemas : List (String × JoiSchema) :=
  [("body", .object [("foo", .stringS false)] false)]

/-- A request whose body carries the specified `foo` plus an unspecified
`extra` field. -/
def reqExtra : Request :=
  { method := "POST", headers := .obj [],
    body := .obj [("foo", .str "x"), ("extra", .str "y")],
    query := .obj [], other := [] }

/-- Counterexample to C9 as stated: `extra` is not specified by the body
segment's schema, yet validation fails on it — the wrapped handler yields
the 400 error `"body.extra" is not allowed` instead of permitting the
field. -/
theorem joiValidate_schema_scope_counterexample :
    isSchemaKey [("foo", JoiSchema.stringS false)] "extra" = false ∧
    (withValidation c9schemas objHandler reqExtra res0).outcome =
      .error (.boom (boomBadRequest "\"body.extra\" is not allowed"
        (.withOriginal (.plain "\"body.extra\" is not allowed"
          "ValidationError: \"body.extra\" is not allowed")))) :=
  ⟨rfl, rfl⟩

/-- A request object (as a field list) with a populated body outside the
schema keys of `c6schemas`. -/
def c9kvs : List (String × JsVal) :=
  [("headers", .obj []), ("body", .obj [("x", .str "y")]),
   ("query", .obj [("foo", .str "a")])]

/-- The same object with a different body. -/
def c9kvsAlt : List (String × JsVal) :=
  [("headers", .obj []), ("body", .obj [("z", .num 3)]),
   ("query", .obj [("foo", .str "a")])]

/-- Witness for C9 (amended), at concrete inputs: the unvalidated `body`
passes through unchanged, changing it does not affect the validation
verdict, and the unspecified `extra` field inside a validated segment is
rejected. -/
theorem joiValidate_schema_scope_witness :
    objGet (.obj c9kvs) "body" = objGetL c9kvs "body" ∧
    exceptOk (joiValidate (.object c6schemas true) [] (.obj c9kvs)) =
      exceptOk (joiValidate (.object c6schemas true) [] (.obj c9kvsAlt)) ∧
    joiValidate (.object [("foo", .stringS false)] false) ["body"]
        (.obj [("foo", .str "x"), ("extra", .str "y")]) =
      .error "\"body.extra\" is not allowed" :=
  ⟨joiValidate_schema_scope.1 c6schemas c9kvs (.obj c9kvs) "body" rfl rfl,
   joiValidate_schema_scope.2.1 c6schemas c9kvs c9kvsAlt
     (by
       intro k hk
       have hqk : "query" = k := by
         simp [isSchemaKey, c6schemas] at hk
         exact hk
       subst hqk
       rfl),
   joiValidate_schema_scope.2.2 [("foo", .stringS false)] ["body"]
     [("foo", .str "x"), ("extra", .str "y")] [("foo", .str "x")] "extra" rfl rfl⟩
